import Mathlib

/-!
# DogeNet core: shallow embedding and verification

This development embeds the persistence core (`internal/store/sqlite.go`)
and the networking fabric (`internal/netsvc/service.go`) of the DogeNet
repository as executable Lean definitions, and proves the specified
properties about them.

Conventions:
* byte strings are `List Nat`;
* SQL tables are lists of row structures; `UPDATE ... WHERE` is a `map`
  guarded by the predicate, `DELETE ... WHERE` a `filter`, `INSERT` an
  append; SQLite rowids are modelled with an explicit `nextOid` counter;
* `ORDER BY RANDOM() LIMIT 1` is modelled by an arbitrary index into the
  selected rows (the caller quantifies over the index);
* Go `error` values are an explicit error type; the `spec` package error
  taxonomy (`NotFound`, `AlreadyExists`, ...) is distinguished from raw
  `fmt.Errorf` errors, which the taxonomy does not classify.
-/

namespace Dogenet

abbrev Bytes := List Nat

/-- The `config` table (singleton): day counter and last calendar-day stamp. -/
structure Config where
  dayc : Int
  last : Int
deriving Repr, DecidableEq

/-- One row of the `core` table (crawled Dogecoin Core nodes). -/
structure CoreRow where
  address : Bytes
  time : Int
  services : Nat
  isnew : Bool
  dayc : Int
deriving Repr, DecidableEq

/-- One row of the `node` table (overlay peers), with its SQLite rowid. -/
structure NodeRow where
  oid : Nat
  key : Bytes
  address : Bytes
  time : Int
  owner : Bytes
  payload : Bytes
  sig : Bytes
  dayc : Int
deriving Repr, DecidableEq

/-- One row of the `chan` table (per-node channel subscriptions),
keyed by the rowid of the `node` table. -/
structure ChanRow where
  node : Nat
  tag : Nat
deriving Repr, DecidableEq

/-- One row of the `channels` table (locally registered channels). -/
structure ChannelRow where
  tag : Nat
  dayc : Int
deriving Repr, DecidableEq

/-- The SQLite database state: all tables of `SQL_SCHEMA`. -/
structure DB where
  config : Config
  announce : Option (Bytes × Bytes × Int)
  core : List CoreRow
  node : List NodeRow
  nextOid : Nat
  chans : List ChanRow
  channels : List ChannelRow
deriving Repr, DecidableEq

/-- Go `error` results of store operations.  The `spec` package taxonomy
(`NotFoundError`, ...) is distinguished from raw `fmt.Errorf` errors,
which `doTxn` returns unclassified. -/
inductive StoreErr where
  | notFound
  | alreadyExists
  | dbConflict
  | dbProblem (msg : String)
  | plainErr (msg : String)
deriving Repr, DecidableEq

/-- Model of `SQLiteStore.TrimNodes`: inside one transaction, read `config`; if the
calendar day (`today`, the caller's `unixDayStamp()`) differs from `last`,
advance `dayc`, persist the new `last`, and delete the expired rows of
`core`, `node` and `channels`.  The returned triple is
`(advanced, remCore, remNode)`; NOTE the source assigns the `node`
deletion count to `remNode` and then overwrites it with the `channels`
deletion count, so the returned `remNode` is the `channels` count. -/
def trimNodes (db : DB) (today : Int) : (Bool × Int × Int) × DB :=
  if db.config.last = today then
    ((false, 0, 0), db)
  else
    let dayc := db.config.dayc + 1
    let remCore : Int := (db.core.countP (fun r => decide (r.dayc < dayc)) : Nat)
    let core' := db.core.filter (fun r => !decide (r.dayc < dayc))
    let node' := db.node.filter (fun r => !decide (r.dayc < dayc))
    let remChan : Int := (db.channels.countP (fun r => decide (r.dayc < dayc)) : Nat)
    let channels' := db.channels.filter (fun r => !decide (r.dayc < dayc))
    ((true, remCore, remChan),
      { db with config := ⟨dayc, today⟩, core := core', node := node', channels := channels' })

/-- Model of `SQLiteStore.AddCoreNode`: try `UPDATE core SET time, services,
dayc=MAX(dayc, remainDays + config.dayc) WHERE address=?`; if no row was
affected, `INSERT` a fresh row with `isnew=true` and
`dayc = remainDays + config.dayc`. -/
def addCoreNode (db : DB) (address : Bytes) (unixTimeSec remainDays : Int)
    (services : Nat) : DB :=
  if db.core.any (fun r => decide (r.address = address)) then
    { db with core := db.core.map (fun r =>
        if r.address = address then
          { r with time := unixTimeSec, services := services,
                   dayc := max r.dayc (remainDays + db.config.dayc) }
        else r) }
  else
    { db with core :=
        db.core ++ [⟨address, unixTimeSec, services, true, remainDays + db.config.dayc⟩] }

/-- Model of `SQLiteStore.AddNetNode`: look up the row by `key`.  If absent, insert
it (with `dayc = 30 + config.dayc`) and take its fresh rowid; if present
with byte-identical payload, return `changed=false` touching nothing;
otherwise update the row.  In both changing branches, delete the row's
`chan` entries and insert one per supplied channel, then report
`changed=true`. -/
def addNetNode (db : DB) (key : Bytes) (address : Bytes) (time : Int)
    (owner : Bytes) (channels : List Nat) (payload sig : Bytes) : Bool × DB :=
  match db.node.find? (fun r => decide (r.key = key)) with
  | none =>
      let oid := db.nextOid
      let row : NodeRow := ⟨oid, key, address, time, owner, payload, sig, 30 + db.config.dayc⟩
      let chans' := (db.chans.filter (fun c => !decide (c.node = oid)))
        ++ channels.map (fun t => ⟨oid, t⟩)
      (true, { db with node := db.node ++ [row], nextOid := oid + 1, chans := chans' })
  | some row =>
      if row.payload = payload then
        (false, db)
      else
        let node' := db.node.map (fun r =>
          if r.key = key then
            { r with address := address, time := time, owner := owner,
                     payload := payload, sig := sig, dayc := 30 + db.config.dayc }
          else r)
        let chans' := (db.chans.filter (fun c => !decide (c.node = row.oid)))
          ++ channels.map (fun t => ⟨row.oid, t⟩)
        (true, { db with node := node', chans := chans' })

/-- The channel tags recorded in the `chan` table for a given node rowid. -/
def chanTags (db : DB) (oid : Nat) : List Nat :=
  (db.chans.filter (fun c => decide (c.node = oid))).map (fun c => c.tag)

/-- Model of `ORDER BY RANDOM() LIMIT 1` over a selected row set: an arbitrary
index `i` (the randomness) picks a row; `none` iff the set is empty. -/
def pickRandom (rows : List CoreRow) (i : Nat) : Option CoreRow :=
  rows[i % rows.length]?

/-- Model of `SQLiteStore.ChooseCoreNode`: query a random `isnew=TRUE` row; on
`ErrNoRows` fall back to a random `isnew=FALSE` row; if that also yields
no row, the scan error is wrapped as `fmt.Errorf("query-not-new: ...")`
— a raw error, not `spec.NotFoundError`.  A selected address that is not
a valid 18-byte record yields the raw `invalid address` error. -/
def chooseCoreNode (db : DB) (i j : Nat) : Except StoreErr Bytes :=
  match pickRandom (db.core.filter (fun r => r.isnew)) i with
  | some r =>
      if r.address.length = 18 then .ok r.address
      else .error (.plainErr "invalid address")
  | none =>
      match pickRandom (db.core.filter (fun r => !r.isnew)) j with
      | some r =>
          if r.address.length = 18 then .ok r.address
          else .error (.plainErr "invalid address")
      | none => .error (.plainErr "query-not-new")

/-! ## Net service fabric (`internal/netsvc/service.go`) -/

abbrev PeerId := Nat

/-- The all-zeroes sentinel `NoPubKey` used for inbound connections whose
peer key is not yet known. -/
def NoPubKey : Bytes := List.replicate 32 0

/-- The mutex-guarded in-memory bookkeeping of `NetService`.  The Go map
`connectedPeers` is an association list with unique keys; lookups return
the first (hence only) binding. -/
structure NetState where
  stopping : Bool
  connections : List Nat
  connectedPeers : List (Bytes × PeerId)
  handlers : List Nat
deriving Repr, DecidableEq

/-- Go map lookup `connectedPeers[pubKey]`. -/
def lookupPeer (m : List (Bytes × PeerId)) (k : Bytes) : Option PeerId :=
  (m.find? (fun e => decide (e.1 = k))).map (fun e => e.2)

/-- Model of `NetService.trackPeer`: refuse when stopping; append the connection;
for a known (non-sentinel) key, refuse if the key is already connected,
else record the session under the key. -/
def trackPeer (st : NetState) (conn : Nat) (peer : PeerId) (pubKey : Bytes) :
    Bool × NetState :=
  if st.stopping then (false, st)
  else
    let st1 := { st with connections := st.connections ++ [conn] }
    if pubKey ≠ NoPubKey then
      if (lookupPeer st1.connectedPeers pubKey).isSome then (false, st1)
      else (true, { st1 with connectedPeers := st1.connectedPeers ++ [(pubKey, peer)] })
    else (true, st1)

/-- Model of `NetService.adoptPeer`: refuse if the key is already connected, else
record the session under the key. -/
def adoptPeer (st : NetState) (peer : PeerId) (pubKey : Bytes) : Bool × NetState :=
  if (lookupPeer st.connectedPeers pubKey).isSome then (false, st)
  else (true, { st with connectedPeers := st.connectedPeers ++ [(pubKey, peer)] })

/-- Model of `NetService.trackHandler`: refuse when stopping; else append to
`connections` and `handlers`. -/
def trackHandler (st : NetState) (conn : Nat) (hand : Nat) : Bool × NetState :=
  if st.stopping then (false, st)
  else (true, { st with connections := st.connections ++ [conn],
                        handlers := st.handlers ++ [hand] })

/-- How one iteration of an accept loop ends: `fatalExit` models
`log.Fatal` (the whole process exits), `taskReturn` models `return`
(only this goroutine ends), `continueLoop` continues accepting. -/
inductive TaskOutcome where
  | fatalExit (code : Nat)
  | taskReturn
  | continueLoop
deriving Repr, DecidableEq

/-- One iteration of `NetService.acceptHandlers` after `socket.Accept`
returns: an accept error hits `log.Fatal(err)` — the process exits with
status 1; otherwise the handler is tracked (refused only when stopping,
which ends the task). -/
def acceptHandlersIter (st : NetState) (acceptResult : Except String Nat) :
    TaskOutcome × NetState :=
  match acceptResult with
  | .error _ => (.fatalExit 1, st)
  | .ok conn =>
      let r := trackHandler st conn conn
      if r.1 then (.continueLoop, r.2) else (.taskReturn, r.2)

/-- One iteration of `NetService.acceptIncoming` after `listner.Accept`
returns: an accept error is logged and the listener task returns
(typical on `Stop()`); otherwise the inbound peer is tracked with the
`NoPubKey` sentinel. -/
def acceptIncomingIter (st : NetState) (acceptResult : Except String Nat) :
    TaskOutcome × NetState :=
  match acceptResult with
  | .error _ => (.taskReturn, st)
  | .ok conn =>
      let r := trackPeer st conn conn NoPubKey
      if r.1 then (.continueLoop, r.2) else (.taskReturn, r.2)

/-! ## Announcement loop -/

/-- The type `node.AddressMsg` from the gossip library: the one payload format the
core inspects.  Its byte encoding is the library's; it stays abstract
here (see `GossipEnv`). -/
structure AddressMsg where
  time : Int
  address : Bytes
  port : Nat
  owner : Bytes
  channels : List Nat
  services : List (Nat × Nat)
deriving Repr, DecidableEq

/-- A pre-encoded gossip message: envelope header plus payload. -/
structure RawMsg where
  header : Bytes
  payload : Bytes
deriving Repr, DecidableEq

/-- Contracts of the external gossip library (`dnet`, `node` packages):
payload encoding/decoding, signing with the node key, envelope header
encoding, the minimum `AddressMsg` size, and the protocol timestamp
conversion.  The theorems hold for every implementation of these. -/
structure GossipEnv where
  encode : AddressMsg → Bytes
  decodeTime : Bytes → Int
  sign : Bytes → Bytes
  header : Bytes → Bytes → Bytes
  reHeader : Bytes → Bytes → Bytes
  addrMsgMinSize : Nat
  unixToDoge : Int → Int

/-- The constant `AnnounceLongevity = 5 * time.Minute`, in seconds. -/
def AnnounceLongevitySecs : Int := 300

/-- What an announcement-producing call returns and does to the store:
the ready-to-send message, the remaining lifetime (seconds), the
`SetAnnounce` write if one happened, and whether a new signature was
produced. -/
structure AnnOut where
  msg : RawMsg
  remain : Int
  stored : Option (Bytes × Bytes × Int)
  signedNew : Bool

/-- Model of `NetService.generateAnnounce`: stamp `Time = now` (protocol
encoding), encode, sign, persist via `SetAnnounce(payload, sig,
now + AnnounceLongevity)`, and return the message with the full
longevity. -/
def generateAnnounce (env : GossipEnv) (next : AddressMsg) (now : Int) : AnnOut :=
  let stamped := { next with time := env.unixToDoge now }
  let payload := env.encode stamped
  let sig := env.sign payload
  { msg := ⟨env.header sig payload, payload⟩
  , remain := AnnounceLongevitySecs
  , stored := some (payload, sig, now + AnnounceLongevitySecs)
  , signedNew := true }

/-- Model of `NetService.loadOrGenerateAnnounce`: read the stored announcement
(`none` models both a store error and an absent row, which `GetAnnounce`
reports as empty fields).  If it is present, well-formed
(`len(payload) >= AddrMsgMinSize`, `len(sig) == 64`), unexpired, and the
current body with `Time` forced to the stored body's `Time` encodes
byte-identically to the stored payload, reuse it: re-encode only the
header, no signing, no store write, remaining lifetime `expires - now`.
Otherwise generate a fresh announcement. -/
def loadOrGenerateAnnounce (env : GossipEnv) (stored : Option (Bytes × Bytes × Int))
    (next : AddressMsg) (now : Int) : AnnOut :=
  match stored with
  | some (oldPayload, sig, expires) =>
      if env.addrMsgMinSize ≤ oldPayload.length ∧ sig.length = 64 ∧ now < expires then
        if env.encode { next with time := env.decodeTime oldPayload } = oldPayload then
          { msg := ⟨env.reHeader sig oldPayload, oldPayload⟩
          , remain := expires - now
          , stored := none
          , signedNew := false }
        else generateAnnounce env next now
      else generateAnnounce env next now
  | none => generateAnnounce env next now

/-- The fields of `NetService` relevant to the announcement loop.  A Go
channel field is an `Option`: `none` is the nil (never-initialized)
channel, on which receive blocks forever. -/
structure NetSvcState where
  addrChange : Option (List AddressMsg)
  nextAnnounce : AddressMsg
  encAnnounce : RawMsg
deriving Repr, DecidableEq

/-- The tag `dnet.ServiceCore`, the 4-character service tag advertised by
`New` (value abstracted as its 4CC code). -/
def serviceCoreTag : Nat := 0x436F7265

/-- Model of `netsvc.New`: constructs the service.  `addrChange` is absent from
the initializer, so it keeps Go's zero value — the nil channel. -/
def newNetService (publicHost : Bytes) (publicPort : Nat) (idenPub : Bytes) :
    NetSvcState :=
  { addrChange := none
  , nextAnnounce :=
      { time := 0, address := publicHost, port := publicPort, owner := idenPub,
        channels := [], services := [(serviceCoreTag, 22556)] }
  , encAnnounce := ⟨[], []⟩ }

/-- The three events `updateAnnounce` selects on. -/
inductive AnnEvent where
  | addrChanged (m : AddressMsg)
  | timerFired
  | cancelled
deriving Repr, DecidableEq

/-- An event can be selected only if its channel can deliver: a receive
on a nil channel never proceeds, so `addrChanged` requires the
`addrChange` channel to have been initialized. -/
def annEnabled (svc : NetSvcState) : AnnEvent → Prop
  | .addrChanged _ => svc.addrChange.isSome = true
  | .timerFired => True
  | .cancelled => True

/-- What a loop iteration of `updateAnnounce` does besides updating
state: regenerate-and-broadcast, or exit. -/
inductive AnnAction where
  | regossip
  | exit
deriving Repr, DecidableEq

/-- One iteration of the `updateAnnounce` select loop. -/
def annStep (env : GossipEnv) (now : Int) (svc : NetSvcState) :
    AnnEvent → NetSvcState × AnnAction
  | .addrChanged m =>
      let out := generateAnnounce env m now
      ({ svc with nextAnnounce := m, encAnnounce := out.msg }, .regossip)
  | .timerFired =>
      let out := generateAnnounce env svc.nextAnnounce now
      ({ svc with encAnnounce := out.msg }, .regossip)
  | .cancelled => (svc, .exit)

/-- A list of events is a valid trace of the `updateAnnounce` loop from
`svc` when each event is enabled in the state where it is selected. -/
def annTraceOK (env : GossipEnv) (now : Int) (svc : NetSvcState) :
    List AnnEvent → Prop
  | [] => True
  | e :: es => annEnabled svc e ∧ annTraceOK env now (annStep env now svc e).1 es

/-! ## Theorems -/

/-- C2: `trimNodes` is a no-op (`advanced = false`, nothing deleted) when
the current calendar day equals the stored `last`; when the day changed
it increments `dayc` by exactly one, persists the new `last`, and deletes
exactly the rows whose stored day-count is below the new `dayc` from the
`core`, `node` and `channels` tables — all within the one transaction
that the function body models. -/
theorem trimNodes_day_semantics (db : DB) (today : Int) :
    (db.config.last = today → trimNodes db today = ((false, 0, 0), db)) ∧
    (db.config.last ≠ today →
      (trimNodes db today).1.1 = true ∧
      (trimNodes db today).2.config.dayc = db.config.dayc + 1 ∧
      (trimNodes db today).2.config.last = today ∧
      (trimNodes db today).2.core =
        db.core.filter (fun r => !decide (r.dayc < db.config.dayc + 1)) ∧
      (trimNodes db today).2.node =
        db.node.filter (fun r => !decide (r.dayc < db.config.dayc + 1)) ∧
      (trimNodes db today).2.channels =
        db.channels.filter (fun r => !decide (r.dayc < db.config.dayc + 1)) ∧
      (trimNodes db today).2.announce = db.announce ∧
      (trimNodes db today).2.chans = db.chans) := by
  constructor
  · intro h; simp [trimNodes, h]
  · intro h; simp [trimNodes, h]

def trimExDB : DB :=
  { config := ⟨5, 1000⟩, announce := none,
    core := [⟨List.replicate 18 1, 0, 0, true, 5⟩],
    node := [], nextOid := 1, chans := [], channels := [] }

theorem trimNodes_day_semantics_witness :
    trimNodes trimExDB 1000 = ((false, 0, 0), trimExDB) ∧
    (trimNodes trimExDB 1001).1.1 = true :=
  ⟨(trimNodes_day_semantics trimExDB 1000).1 rfl,
   ((trimNodes_day_semantics trimExDB 1001).2 (by decide)).1⟩

def c6DB : DB :=
  { config := ⟨1, 0⟩, announce := none, core := [],
    node := [⟨0, [1], [2], 0, [3], [4], [5], 1⟩],
    nextOid := 1, chans := [], channels := [] }

/-- C6: evaluation at a failing input.  `c6DB` holds one overlay `node`
row that expires when `dayc` advances to 2, and no `channels` rows.  The
call deletes that node row, yet reports `removedNet = 0`, because the
source assigns the `node` deletion count to `remNode` and then
overwrites it with the `channels` deletion count.  The claim says
`removedNet` equals the node-table deletions (here 1). -/
theorem trimNodes_remNode_reports_channels_count :
    (trimNodes c6DB 1).1 = (true, 0, 0) ∧
    c6DB.node.countP (fun r => decide (r.dayc < 2)) = 1 ∧
    (trimNodes c6DB 1).2.node = [] := by decide

def c8St : NetState := ⟨false, [], [], []⟩

/-- C8: evaluation at the failing input.  When `Accept` on the local
filesystem control socket fails (e.g. after `Stop()` closes it), the
`acceptHandlers` loop calls `log.Fatal(err)`, which exits the whole
process with status 1 — it does not merely terminate the local-accept
task.  By contrast, the TCP listener loop `acceptIncoming` only returns
from its own task on an accept error. -/
theorem acceptHandlers_fatal_on_accept_error :
    (acceptHandlersIter c8St (.error "use of closed network connection")).1 =
      TaskOutcome.fatalExit 1 ∧
    (acceptIncomingIter c8St (.error "use of closed network connection")).1 =
      TaskOutcome.taskReturn ∧
    TaskOutcome.fatalExit 1 ≠ TaskOutcome.taskReturn :=
  ⟨rfl, rfl, by decide⟩

/-- C1: at most one live session per NodeKey.  If `connectedPeers`
already maps `k` to a session `p`, then `trackPeer` with any genuine key
(`k ≠ NoPubKey`) returns `false`, `adoptPeer` returns `false`, and
neither call replaces the incumbent: afterwards `k` still maps to `p`. -/
theorem peer_identity_uniqueness (st : NetState) (conn : Nat) (peer p : PeerId)
    (k : Bytes) (hk : lookupPeer st.connectedPeers k = some p) :
    (k ≠ NoPubKey → (trackPeer st conn peer k).1 = false) ∧
    lookupPeer (trackPeer st conn peer k).2.connectedPeers k = some p ∧
    (adoptPeer st peer k).1 = false ∧
    lookupPeer (adoptPeer st peer k).2.connectedPeers k = some p := by
  have hsome : (lookupPeer st.connectedPeers k).isSome = true := by
    rw [hk]; rfl
  unfold trackPeer adoptPeer
  by_cases hs : st.stopping
  · simp [hs, hk, hsome]
  · by_cases hnk : k = NoPubKey
    · subst hnk; simp [hs, hk, hsome]
    · simp [hs, hnk, hk, hsome]

def w1St : NetState := ⟨false, [], [(List.replicate 32 7, 4)], []⟩

theorem peer_identity_uniqueness_witness :
    ((List.replicate 32 7 : Bytes) ≠ NoPubKey →
       (trackPeer w1St 1 9 (List.replicate 32 7)).1 = false) ∧
    lookupPeer (trackPeer w1St 1 9 (List.replicate 32 7)).2.connectedPeers
      (List.replicate 32 7) = some 4 ∧
    (adoptPeer w1St 9 (List.replicate 32 7)).1 = false ∧
    lookupPeer (adoptPeer w1St 9 (List.replicate 32 7)).2.connectedPeers
      (List.replicate 32 7) = some 4 :=
  peer_identity_uniqueness w1St 1 9 4 (List.replicate 32 7) rfl

/-- C9: when `addNetNode` reports `changed = false` (existing row with a
byte-identical payload), the store is left completely unchanged: every
table, the day counter and the rowid counter are exactly as before. -/
theorem addNetNode_unchanged_is_noop (db : DB) (key address : Bytes) (time : Int)
    (owner : Bytes) (channels : List Nat) (payload sig : Bytes)
    (h : (addNetNode db key address time owner channels payload sig).1 = false) :
    (addNetNode db key address time owner channels payload sig).2 = db := by
  unfold addNetNode at h ⊢
  cases hf : db.node.find? (fun r => decide (r.key = key)) with
  | none => rw [hf] at h; simp at h
  | some row =>
      rw [hf] at h
      by_cases hp : row.payload = payload
      · simp [hp]
      · simp [hp] at h

def w9DB : DB :=
  { config := ⟨1, 0⟩, announce := none, core := [],
    node := [⟨0, [9], [2], 0, [3], [4], [5], 31⟩],
    nextOid := 1, chans := [⟨0, 11⟩], channels := [] }

theorem addNetNode_unchanged_is_noop_witness :
    (addNetNode w9DB [9] [8] 7 [6] [12] [4] [13]).2 = w9DB :=
  addNetNode_unchanged_is_noop w9DB [9] [8] 7 [6] [12] [4] [13] (by decide)

theorem filter_node_of_filter_not (oid : Nat) (l : List ChanRow) :
    (l.filter (fun c => !decide (c.node = oid))).filter
      (fun c => decide (c.node = oid)) = [] := by
  induction l with
  | nil => rfl
  | cons a t ih => by_cases h : a.node = oid <;> simp [List.filter_cons, h, ih]

/-- Deleting a rowid's `chan` entries and inserting one per supplied
channel leaves exactly the supplied channels recorded for that rowid. -/
theorem replaced_chan_tags (l : List ChanRow) (oid : Nat) (cs : List Nat) :
    ((l.filter (fun c => !decide (c.node = oid))
        ++ cs.map (fun t => ChanRow.mk oid t)).filter
          (fun c => decide (c.node = oid))).map (fun c => c.tag) = cs := by
  rw [List.filter_append, filter_node_of_filter_not, List.nil_append]
  induction cs with
  | nil => rfl
  | cons c ct ih => simp [List.filter_cons, ih]

/-- In a table whose keys are pairwise distinct (the `PRIMARY KEY`
constraint of the `node` table), two rows with the same key coincide. -/
theorem node_key_unique {l : List NodeRow}
    (h : l.Pairwise (fun a b => a.key ≠ b.key)) {a b : NodeRow}
    (ha : a ∈ l) (hb : b ∈ l) (hk : a.key = b.key) : a = b := by
  by_contra hne
  induction l with
  | nil => cases ha
  | cons x t ih =>
      rcases List.mem_cons.mp ha with rfl | ha' <;>
        rcases List.mem_cons.mp hb with rfl | hb'
      · exact hne rfl
      · exact (List.pairwise_cons.mp h).1 b hb' hk
      · exact (List.pairwise_cons.mp h).1 a ha' hk.symm
      · exact ih (List.pairwise_cons.mp h).2 ha' hb'

/-- C4: `addNetNode` returns `changed = false` exactly when a row with
the key already exists with byte-identical payload; in every other case
(`changed = true`) the resulting `node` table holds a row for the key
carrying the supplied address, time, owner, payload and signature with
expiry `30 + dayc`, and that row's channel set is exactly the supplied
channels. -/
theorem addNetNode_changed_semantics (db : DB) (key address : Bytes) (time : Int)
    (owner : Bytes) (channels : List Nat) (payload sig : Bytes)
    (hkeys : db.node.Pairwise (fun a b => a.key ≠ b.key)) :
    ((addNetNode db key address time owner channels payload sig).1 = false ↔
       ∃ r ∈ db.node, r.key = key ∧ r.payload = payload) ∧
    ((addNetNode db key address time owner channels payload sig).1 = true →
       ∃ r ∈ (addNetNode db key address time owner channels payload sig).2.node,
         r.key = key ∧ r.address = address ∧ r.time = time ∧ r.owner = owner ∧
         r.payload = payload ∧ r.sig = sig ∧ r.dayc = 30 + db.config.dayc ∧
         chanTags (addNetNode db key address time owner channels payload sig).2 r.oid
           = channels) := by
  unfold addNetNode
  cases hf : db.node.find? (fun r => decide (r.key = key)) with
  | none =>
      have hnone : ∀ r ∈ db.node, ¬(r.key = key) := by
        intro r hr
        simpa using List.find?_eq_none.mp hf r hr
      constructor
      · constructor
        · intro h; simp at h
        · rintro ⟨r, hr, hrk, -⟩; exact absurd hrk (hnone r hr)
      · intro _
        refine ⟨⟨db.nextOid, key, address, time, owner, payload, sig,
          30 + db.config.dayc⟩, ?_, rfl, rfl, rfl, rfl, rfl, rfl, rfl, ?_⟩
        · simp
        · simpa [chanTags] using replaced_chan_tags db.chans db.nextOid channels
  | some row =>
      dsimp only
      have hrowmem : row ∈ db.node := List.mem_of_find?_eq_some hf
      have hrowkey : row.key = key := by simpa using List.find?_some hf
      by_cases hp : row.payload = payload
      · constructor
        · rw [if_pos hp]
          exact ⟨fun _ => ⟨row, hrowmem, hrowkey, hp⟩, fun _ => rfl⟩
        · intro h; rw [if_pos hp] at h; simp at h
      · constructor
        · simp only [if_neg hp]
          constructor
          · intro h; simp at h
          · rintro ⟨r, hr, hrk, hrp⟩
            have heq : r = row :=
              node_key_unique hkeys hr hrowmem (hrk.trans hrowkey.symm)
            exact absurd (heq ▸ hrp) hp
        · intro _
          simp only [if_neg hp]
          refine ⟨NodeRow.mk row.oid row.key address time owner payload sig
              (30 + db.config.dayc), ?_, hrowkey, rfl, rfl, rfl, rfl, rfl, rfl, ?_⟩
          · refine List.mem_map.mpr ⟨row, hrowmem, ?_⟩
            rw [if_pos hrowkey]
          · simpa [chanTags] using replaced_chan_tags db.chans row.oid channels

def w4DB : DB :=
  { config := ⟨2, 0⟩, announce := none, core := [],
    node := [⟨0, [9], [2], 0, [3], [4], [5], 31⟩],
    nextOid := 1, chans := [⟨0, 11⟩], channels := [] }

theorem addNetNode_changed_semantics_witness :
    ((addNetNode w4DB [9] [8] 7 [6] [12] [40] [13]).1 = false ↔
       ∃ r ∈ w4DB.node, r.key = [9] ∧ r.payload = [40]) ∧
    ((addNetNode w4DB [9] [8] 7 [6] [12] [40] [13]).1 = true →
       ∃ r ∈ (addNetNode w4DB [9] [8] 7 [6] [12] [40] [13]).2.node,
         r.key = [9] ∧ r.address = [8] ∧ r.time = 7 ∧ r.owner = [6] ∧
         r.payload = [40] ∧ r.sig = [13] ∧ r.dayc = 30 + w4DB.config.dayc ∧
         chanTags (addNetNode w4DB [9] [8] 7 [6] [12] [40] [13]).2 r.oid = [12]) :=
  addNetNode_changed_semantics w4DB [9] [8] 7 [6] [12] [40] [13]
    (by simp [w4DB])

/-- C7: a successful `addCoreNode` or `addNetNode` never decreases a
row's stored expiry day-count.  For `addCoreNode`, every existing `core`
row survives with the same address and a day-count that never went down,
and the updated row gets exactly `max(existing, remainDays + dayc)`.
For `addNetNode`, every existing `node` row whose day-count respects the
write-time invariant `dayc ≤ 30 + config.dayc` (every row the store ever
writes does, and the counter only advances) survives with a day-count
that never went down. -/
theorem expiry_monotonic (db : DB) (address : Bytes) (unixTimeSec remainDays : Int)
    (services : Nat) (key addr2 : Bytes) (time : Int) (owner : Bytes)
    (channels : List Nat) (payload sig : Bytes) :
    (∀ r ∈ db.core,
       ∃ r' ∈ (addCoreNode db address unixTimeSec remainDays services).core,
         r'.address = r.address ∧ r.dayc ≤ r'.dayc ∧
         (r.address = address →
            r'.dayc = max r.dayc (remainDays + db.config.dayc))) ∧
    (∀ r ∈ db.node, r.dayc ≤ 30 + db.config.dayc →
       ∃ r' ∈ (addNetNode db key addr2 time owner channels payload sig).2.node,
         r'.key = r.key ∧ r.dayc ≤ r'.dayc) := by
  constructor
  · intro r hr
    unfold addCoreNode
    by_cases hany : db.core.any (fun x => decide (x.address = address)) = true
    · rw [if_pos hany]
      refine ⟨if r.address = address then
          { r with time := unixTimeSec, services := services,
                   dayc := max r.dayc (remainDays + db.config.dayc) }
        else r, ?_, ?_⟩
      · exact List.mem_map.mpr ⟨r, hr, rfl⟩
      · by_cases ha : r.address = address
        · simp [ha, le_max_left]
        · simp [ha]
    · rw [if_neg hany]
      have hnot : ¬(r.address = address) := by
        intro h
        exact hany (List.any_eq_true.mpr ⟨r, hr, by simp [h]⟩)
      exact ⟨r, List.mem_append_left _ hr, rfl, le_refl _, fun h => absurd h hnot⟩
  · intro r hr hle
    unfold addNetNode
    cases hf : db.node.find? (fun x => decide (x.key = key)) with
    | none =>
        exact ⟨r, List.mem_append_left _ hr, rfl, le_refl _⟩
    | some row =>
        dsimp only
        by_cases hp : row.payload = payload
        · rw [if_pos hp]
          exact ⟨r, hr, rfl, le_refl _⟩
        · rw [if_neg hp]
          refine ⟨if r.key = key then
              { r with address := addr2, time := time, owner := owner,
                       payload := payload, sig := sig, dayc := 30 + db.config.dayc }
            else r, List.mem_map.mpr ⟨r, hr, rfl⟩, ?_⟩
          by_cases hk : r.key = key
          · simp [hk, hle]
          · simp [hk]

def w7DB : DB :=
  { config := ⟨4, 0⟩, announce := none,
    core := [⟨List.replicate 18 2, 5, 0, true, 6⟩],
    node := [⟨0, [9], [2], 0, [3], [4], [5], 20⟩],
    nextOid := 1, chans := [], channels := [] }

theorem expiry_monotonic_witness :
    (∃ r' ∈ (addCoreNode w7DB (List.replicate 18 2) 9 3 1).core,
       r'.address = (⟨List.replicate 18 2, 5, 0, true, 6⟩ : CoreRow).address ∧
       (⟨List.replicate 18 2, 5, 0, true, 6⟩ : CoreRow).dayc ≤ r'.dayc ∧
       ((⟨List.replicate 18 2, 5, 0, true, 6⟩ : CoreRow).address =
          List.replicate 18 2 →
          r'.dayc = max (⟨List.replicate 18 2, 5, 0, true, 6⟩ : CoreRow).dayc
            (3 + w7DB.config.dayc))) ∧
    (∃ r' ∈ (addNetNode w7DB [9] [8] 7 [6] [12] [40] [13]).2.node,
       r'.key = (⟨0, [9], [2], 0, [3], [4], [5], 20⟩ : NodeRow).key ∧
       (⟨0, [9], [2], 0, [3], [4], [5], 20⟩ : NodeRow).dayc ≤ r'.dayc) :=
  ⟨(expiry_monotonic w7DB (List.replicate 18 2) 9 3 1 [9] [8] 7 [6] [12] [40]
      [13]).1 _ (by simp [w7DB]),
   (expiry_monotonic w7DB (List.replicate 18 2) 9 3 1 [9] [8] 7 [6] [12] [40]
      [13]).2 _ (by simp [w7DB]) (by decide)⟩

theorem pickRandom_mem (rows : List CoreRow) (i : Nat) (h : rows ≠ []) :
    ∃ r, pickRandom rows i = some r ∧ r ∈ rows := by
  have hlen : 0 < rows.length := List.length_pos.mpr h
  have hlt : i % rows.length < rows.length := Nat.mod_lt _ hlen
  exact ⟨rows[i % rows.length], by simp [pickRandom, List.getElem?_eq_getElem hlt],
    List.getElem_mem hlt⟩

def emptyDB : DB :=
  { config := ⟨1, 0⟩, announce := none, core := [], node := [],
    nextOid := 1, chans := [], channels := [] }

/-- C5 counterexample: on an empty `core` table, `chooseCoreNode` does
not return the `NotFound` error of the store taxonomy; the `ErrNoRows`
scan error is wrapped as the raw `fmt.Errorf` error `query-not-new`
(contrast `ChooseNetNode`, which maps `ErrNoRows` to
`spec.NotFoundError`). -/
theorem chooseCoreNode_empty_not_notFound :
    chooseCoreNode emptyDB 0 0 = .error (.plainErr "query-not-new") ∧
    chooseCoreNode emptyDB 0 0 ≠ .error StoreErr.notFound := by
  refine ⟨rfl, ?_⟩
  intro h
  rw [show chooseCoreNode emptyDB 0 0 = .error (.plainErr "query-not-new") from rfl]
    at h
  simp at h

/-- C5 amended: `chooseCoreNode` returns the address of a record with
`isnew = true` when at least one exists (for every random pick), falls
back to a record with `isnew = false` when no `isnew = true` record
exists, and on an empty `core` table returns the raw `query-not-new`
error (not the `NotFound` taxonomy error). -/
theorem chooseCoreNode_preference (db : DB) (i j : Nat)
    (hwf : ∀ r ∈ db.core, r.address.length = 18) :
    (db.core.filter (fun r => r.isnew) ≠ [] →
       ∃ r ∈ db.core, r.isnew = true ∧ chooseCoreNode db i j = .ok r.address) ∧
    (db.core.filter (fun r => r.isnew) = [] →
     db.core.filter (fun r => !r.isnew) ≠ [] →
       ∃ r ∈ db.core, r.isnew = false ∧ chooseCoreNode db i j = .ok r.address) ∧
    (db.core = [] →
       chooseCoreNode db i j = .error (.plainErr "query-not-new")) := by
  refine ⟨?_, ?_, ?_⟩
  · intro hne
    obtain ⟨r, hpick, hmem⟩ := pickRandom_mem _ i hne
    obtain ⟨hmem', hnew⟩ := List.mem_filter.mp hmem
    refine ⟨r, hmem', hnew, ?_⟩
    unfold chooseCoreNode
    rw [hpick]
    dsimp only
    rw [if_pos (hwf r hmem')]
  · intro hemp hne
    obtain ⟨r, hpick, hmem⟩ := pickRandom_mem _ j hne
    obtain ⟨hmem', hold⟩ := List.mem_filter.mp hmem
    refine ⟨r, hmem', by simpa using hold, ?_⟩
    unfold chooseCoreNode
    rw [hemp]
    have hnone : pickRandom ([] : List CoreRow) i = none := by simp [pickRandom]
    rw [hnone, hpick]
    dsimp only
    rw [if_pos (hwf r hmem')]
  · intro h
    unfold chooseCoreNode
    rw [h]
    simp [pickRandom]

def w5DB : DB :=
  { config := ⟨1, 0⟩, announce := none,
    core := [⟨List.replicate 18 3, 4, 0, true, 4⟩],
    node := [], nextOid := 1, chans := [], channels := [] }

theorem chooseCoreNode_preference_witness :
    ∃ r ∈ w5DB.core, r.isnew = true ∧
      chooseCoreNode w5DB 0 0 = .ok r.address :=
  (chooseCoreNode_preference w5DB 0 0 (by decide)).1 (by decide)

/-- C3: on startup, when a stored, well-formed (payload no shorter than
`AddrMsgMinSize`, 64-byte signature) and unexpired announcement exists
whose payload coincides byte-for-byte with the freshly computed body
after forcing `Time` to the stored body's `Time`,
`loadOrGenerateAnnounce` reuses the stored payload and signature: no new
signature, no store write, and remaining lifetime `expires − now`.  In
every other case it generates, signs and persists a fresh announcement
with the full `AnnounceLongevity`. -/
theorem announce_reuse_semantics (env : GossipEnv)
    (stored : Option (Bytes × Bytes × Int)) (next : AddressMsg) (now : Int) :
    (∀ p sg exp, stored = some (p, sg, exp) →
       env.addrMsgMinSize ≤ p.length → sg.length = 64 → now < exp →
       env.encode { next with time := env.decodeTime p } = p →
       loadOrGenerateAnnounce env stored next now =
         { msg := ⟨env.reHeader sg p, p⟩, remain := exp - now,
           stored := none, signedNew := false }) ∧
    ((¬ ∃ p sg exp, stored = some (p, sg, exp) ∧
        env.addrMsgMinSize ≤ p.length ∧ sg.length = 64 ∧ now < exp ∧
        env.encode { next with time := env.decodeTime p } = p) →
       loadOrGenerateAnnounce env stored next now = generateAnnounce env next now ∧
       (loadOrGenerateAnnounce env stored next now).signedNew = true ∧
       (loadOrGenerateAnnounce env stored next now).stored =
         some (env.encode { next with time := env.unixToDoge now },
               env.sign (env.encode { next with time := env.unixToDoge now }),
               now + AnnounceLongevitySecs)) := by
  constructor
  · intro p sg exp hst hlen hsig hexp henc
    subst hst
    simp [loadOrGenerateAnnounce, hlen, hsig, hexp, henc]
  · intro hno
    have hgen : (generateAnnounce env next now).signedNew = true ∧
        (generateAnnounce env next now).stored =
          some (env.encode { next with time := env.unixToDoge now },
                env.sign (env.encode { next with time := env.unixToDoge now }),
                now + AnnounceLongevitySecs) := ⟨rfl, rfl⟩
    cases stored with
    | none => exact ⟨rfl, hgen.1, hgen.2⟩
    | some t =>
        obtain ⟨p, sg, exp⟩ := t
        by_cases hc : env.addrMsgMinSize ≤ p.length ∧ sg.length = 64 ∧ now < exp
        · by_cases henc : env.encode { next with time := env.decodeTime p } = p
          · exact absurd ⟨p, sg, exp, rfl, hc.1, hc.2.1, hc.2.2, henc⟩ hno
          · refine ⟨?_, ?_, ?_⟩ <;> simp [loadOrGenerateAnnounce, hc, henc, hgen.1, hgen.2]
        · refine ⟨?_, ?_, ?_⟩ <;> simp [loadOrGenerateAnnounce, hc, hgen.1, hgen.2]

/-- A concrete gossip-library instance used by the witnesses: constant
encodings of the right sizes. -/
def exEnv : GossipEnv :=
  { encode := fun _ => List.replicate 10 0
  , decodeTime := fun _ => 0
  , sign := fun _ => List.replicate 64 0
  , header := fun _ _ => []
  , reHeader := fun _ _ => []
  , addrMsgMinSize := 10
  , unixToDoge := fun t => t }

theorem announce_reuse_semantics_witness :
    loadOrGenerateAnnounce exEnv
        (some (List.replicate 10 0, List.replicate 64 0, 100))
        ⟨0, [], 0, [], [], []⟩ 50 =
      { msg := ⟨exEnv.reHeader (List.replicate 64 0) (List.replicate 10 0),
          List.replicate 10 0⟩,
        remain := 100 - 50, stored := none, signedNew := false } :=
  (announce_reuse_semantics exEnv
      (some (List.replicate 10 0, List.replicate 64 0, 100))
      ⟨0, [], 0, [], [], []⟩ 50).1
    (List.replicate 10 0) (List.replicate 64 0) 100 rfl (by decide)
    (by simp) (by decide) rfl

theorem annStep_addrChange_const (env : GossipEnv) (now : Int)
    (svc : NetSvcState) (e : AnnEvent) :
    ((annStep env now svc e).1).addrChange = svc.addrChange := by
  cases e <;> rfl

theorem annTrace_no_addrChange (env : GossipEnv) (now : Int) :
    ∀ (tr : List AnnEvent) (svc : NetSvcState), svc.addrChange = none →
      annTraceOK env now svc tr →
      ∀ e ∈ tr, ∀ m, e ≠ AnnEvent.addrChanged m := by
  intro tr
  induction tr with
  | nil => intro svc _ _ e he; cases he
  | cons a t ih =>
      intro svc hnone hok e he m
      obtain ⟨hen, htl⟩ := hok
      rcases List.mem_cons.mp he with rfl | he'
      · rintro rfl
        rw [show annEnabled svc (AnnEvent.addrChanged m) =
              (svc.addrChange.isSome = true) from rfl, hnone] at hen
        simp at hen
      · exact ih ((annStep env now svc a).1)
          (by rw [annStep_addrChange_const, hnone]) htl e he' m

/-- C10: a `NetService` built by `New` leaves the `addrChange` channel
nil (never initialized), a receive on a nil channel never proceeds, and
no iteration of `updateAnnounce` ever changes that; hence in every valid
trace of the announcement loop the `addrChange` branch is never taken,
and every regenerate-and-regossip step is a timer firing. -/
theorem new_addrChange_never_fires (publicHost : Bytes) (publicPort : Nat)
    (idenPub : Bytes) (env : GossipEnv) (now : Int) (tr : List AnnEvent)
    (hok : annTraceOK env now (newNetService publicHost publicPort idenPub) tr) :
    (newNetService publicHost publicPort idenPub).addrChange = none ∧
    (∀ e ∈ tr, ∀ m, e ≠ AnnEvent.addrChanged m) ∧
    (∀ e ∈ tr, ∀ svc, (annStep env now svc e).2 = AnnAction.regossip →
       e = AnnEvent.timerFired) := by
  refine ⟨rfl, annTrace_no_addrChange env now tr _ rfl hok, ?_⟩
  intro e he svc hreg
  have hne := annTrace_no_addrChange env now tr _ rfl hok e he
  cases e with
  | addrChanged m => exact absurd rfl (hne m)
  | timerFired => rfl
  | cancelled => simp [annStep] at hreg

theorem new_addrChange_never_fires_witness :
    (newNetService [] 0 []).addrChange = none ∧
    (∀ e ∈ [AnnEvent.timerFired, AnnEvent.cancelled],
       ∀ m, e ≠ AnnEvent.addrChanged m) ∧
    (∀ e ∈ [AnnEvent.timerFired, AnnEvent.cancelled], ∀ svc,
       (annStep exEnv 0 svc e).2 = AnnAction.regossip →
       e = AnnEvent.timerFired) :=
  new_addrChange_never_fires [] 0 [] exEnv 0
    [AnnEvent.timerFired, AnnEvent.cancelled] ⟨trivial, trivial, trivial⟩

end Dogenet
